import Mathlib

/-!
Verification of the token resolution and mode-expansion engine of the
canopy-design-tokens repository (the script that converts raw Figma
variables into Style Dictionary token trees).

The JavaScript source is shallowly embedded: JavaScript values that the
engine manipulates become the inductive type `JsValue` (numbers are
idealised as exact rationals; every numeric value the proofs evaluate is
far from a rounding boundary, so `Math.round` agrees with the rational
model), JS objects used as string-keyed maps become ordered association
lists (JS object properties preserve insertion order), and functions that
mutate a shared output object are rephrased as functions returning the
ordered list of (path, token) writes they perform, folded into the tree
by `setNestedValue`.  Exceptions (`throw`) become `Except`.
-/

/-- A JavaScript runtime value as used by the converter.  `vNull` stands for
both `null` and `undefined` (the source only ever distinguishes them through
truthiness, where they agree).  `vColor` is an `{r, g, b}` object and
`vAlias` a `{type: 'VARIABLE_ALIAS', id}` object. -/
inductive JsValue where
  | vNull : JsValue
  | vBool (b : Bool) : JsValue
  | vNum (q : ℚ) : JsValue
  | vNaN : JsValue
  | vStr (s : String) : JsValue
  | vColor (r g b : ℚ) : JsValue
  | vAlias (id : String) : JsValue
deriving DecidableEq, Repr

/-- JavaScript truthiness of a `JsValue` (`null`, `undefined`, `0`, `NaN`,
`""` and `false` are falsy; every object is truthy). -/
def truthy : JsValue → Bool
  | JsValue.vNull => false
  | JsValue.vBool b => b
  | JsValue.vNum q => q != 0
  | JsValue.vNaN => false
  | JsValue.vStr s => s != ""
  | JsValue.vColor _ _ _ => true
  | JsValue.vAlias _ => true

/-- A mode declared on a collection (`{modeId, name}`). -/
structure Mode where
  modeId : String
  name : String
deriving DecidableEq, Repr

/-- A variable collection record.  `modes` is `none` when the raw record
lacks the `modes` field (the source guards with `collection.modes?` /
`!collection.modes`). -/
structure Collection where
  id : String
  name : String
  modes : Option (List Mode)
deriving DecidableEq, Repr

/-- A Figma variable record.  `description` is the empty string when the
field is absent (the source only tests `if (variable.description)`).
`valuesByMode` is the ordered `modeId -> raw value` map. -/
structure Variable where
  name : String
  variableCollectionId : String
  resolvedType : String
  description : String
  valuesByMode : List (String × JsValue)
deriving DecidableEq, Repr

/-- One entry of a mode-dimension catalog as produced by `getColorModes`,
`getStatusModes`, `getThemeModes` (`{name, modeId}`, where the hardcoded
fallback entries carry `modeId: null`). -/
structure ModeEntry where
  name : String
  modeId : Option String
deriving DecidableEq, Repr

/-- The mode context threaded through `resolveAliasWithModeContext`:
up to three named mode ids.  A missing field is `none`. -/
structure ModeContext where
  themeModeId : Option String := none
  colorModeId : Option String := none
  statusModeId : Option String := none
deriving DecidableEq, Repr

/-- Truthiness of an optional string field of the mode context
(`modeContext.themeModeId` is falsy when absent or empty). -/
def truthyOpt : Option String → Bool
  | some s => s != ""
  | none => false

/-- First binding of a string-keyed association list (JS property lookup on
an object whose keys are unique). -/
def lookupStr {α : Type} (l : List (String × α)) (k : String) : Option α :=
  (l.find? (fun p => p.1 == k)).map Prod.snd

/-- `obj[k] = v` on an ordered association list: an existing key keeps its
position, a new key is appended (JS property-order semantics). -/
def setKey {α : Type} (l : List (String × α)) (k : String) (v : α) : List (String × α) :=
  match l with
  | [] => [(k, v)]
  | (k2, v2) :: t => if k2 == k then (k, v) :: t else (k2, v2) :: setKey t k v

/-- `s.endsWith(suffix)` of JavaScript. -/
def strEndsWith (s sfx : String) : Bool :=
  sfx.data.isSuffixOf s.data

/-- Whether `sub` occurs as a contiguous sublist of `l` (scanning every
start position). -/
def infixAux (sub : List Char) : List Char → Bool
  | [] => sub.isEmpty
  | c :: t => sub.isPrefixOf (c :: t) || infixAux sub t

/-- `s.includes(sub)` of JavaScript (substring containment). -/
def strIncludes (s sub : String) : Bool :=
  infixAux sub.data s.data

/-- `s.split(sep)` of JavaScript on a character list (an empty input gives
one empty piece; separators at the ends give empty pieces). -/
def splitCharAux (sep : Char) : List Char → List Char → List (List Char)
  | [], acc => [acc.reverse]
  | c :: t, acc =>
    if c == sep then acc.reverse :: splitCharAux sep t [] else splitCharAux sep t (c :: acc)

/-- `s.split(sep)` of JavaScript, as strings. -/
def splitChar (sep : Char) (s : String) : List String :=
  (splitCharAux sep s.data []).map (fun l => ⟨l⟩)

/-- Joins character-list pieces with a separator (the inverse of
`splitCharAux`, used to rebuild the normalised name). -/
def intercalateChar (sep : Char) : List (List Char) → List Char
  | [] => []
  | [p] => p
  | p :: q :: rest => p ++ sep :: intercalateChar sep (q :: rest)

/-- ASCII `toLowerCase` of one character (variable names in this graph are
ASCII). -/
def jsCharToLower (c : Char) : Char :=
  if 65 ≤ c.toNat && c.toNat ≤ 90 then Char.ofNat (c.toNat + 32) else c

/-- `s.toLowerCase()` of JavaScript (ASCII). -/
def toLowerStr (s : String) : String :=
  ⟨s.data.map jsCharToLower⟩

/-- Model of the JavaScript builtin `String(value)` coercion.  Exact for
null, booleans, strings, NaN, objects and integral numbers; non-integral
numbers (never exercised by the engine's string conversions in this
repository) are rendered as `num/den` instead of JS double formatting. -/
def jsToString : JsValue → String
  | JsValue.vNull => "null"
  | JsValue.vBool b => if b then "true" else "false"
  | JsValue.vNum q => if q.den == 1 then toString q.num else toString q.num ++ "/" ++ toString q.den
  | JsValue.vNaN => "NaN"
  | JsValue.vStr s => s
  | JsValue.vColor _ _ _ => "[object Object]"
  | JsValue.vAlias _ => "[object Object]"

/-- Numeric value of a list of decimal digit characters. -/
def digitsVal (cs : List Char) : Nat :=
  cs.foldl (fun a c => a * 10 + (c.toNat - 48)) 0

/-- Model of the JavaScript builtin `parseFloat`: skip leading whitespace,
optional sign, decimal digits with an optional fractional part; `NaN` when
no digits are found.  (Exponent suffixes are not modelled; the engine never
feeds exponent notation to `parseFloat`.) -/
def parseFloatJs (s : String) : JsValue :=
  let cs := s.data.dropWhile Char.isWhitespace
  let sgn : ℚ := match cs with
    | '-' :: _ => -1
    | _ => 1
  let cs1 : List Char := match cs with
    | '-' :: t => t
    | '+' :: t => t
    | _ => cs
  let intPart := cs1.takeWhile Char.isDigit
  let rest := cs1.dropWhile Char.isDigit
  let fracPart : List Char := match rest with
    | '.' :: t => t.takeWhile Char.isDigit
    | _ => []
  if intPart.isEmpty && fracPart.isEmpty then JsValue.vNaN
  else JsValue.vNum (sgn * ((digitsVal intPart : ℚ) + (digitsVal fracPart : ℚ) / ((10 : ℚ) ^ fracPart.length)))

/-- `Math.round`: round half toward positive infinity. -/
def jsRound (q : ℚ) : ℤ :=
  ⌊q + 1 / 2⌋

/-- Lowercase hexadecimal digit character for `n < 16`. -/
def hexDigitChar (n : Nat) : Char :=
  if n < 10 then Char.ofNat (48 + n) else Char.ofNat (87 + n)

/-- Digit-production loop of `Number.prototype.toString(16)` for naturals,
with structural fuel (`natToHexDigits` supplies enough fuel for the loop to
run to completion, exactly mirroring repeated division by 16). -/
def natToHexAux : Nat → Nat → List Char
  | 0, _ => []
  | _ + 1, n => if n < 16 then [hexDigitChar n] else natToHexAux n (n / 16) ++ [hexDigitChar (n % 16)]

/-- `n.toString(16)` for a natural number, as a digit list. -/
def natToHexDigits (n : Nat) : List Char :=
  natToHexAux (n + 1) n

/-- `i.toString(16)` for a JavaScript integer, as a character list. -/
def intToHexDigits (i : ℤ) : List Char :=
  if i < 0 then '-' :: natToHexDigits i.natAbs else natToHexDigits i.toNat

/-- `cs.padStart(2, '0')` of JavaScript. -/
def padStart2 (cs : List Char) : List Char :=
  if cs.length < 2 then List.replicate (2 - cs.length) '0' ++ cs else cs

/-- `rgbToHex` of the source: each 0–1 component is scaled to 0–255,
rounded, written in lowercase hex and zero-padded to two digits, and the
three results are joined behind `#`. -/
def rgbToHex (r g b : ℚ) : String :=
  let toHex := fun (n : ℚ) => padStart2 (intToHexDigits (jsRound (n * 255)))
  ⟨'#' :: (toHex r ++ toHex g ++ toHex b)⟩

/-- The `switch (variable.resolvedType)` body of `convertVariableValue`,
reached for non-alias values: COLOR with an r/g/b object becomes a hex
string, FLOAT coerces to a number via `parseFloat` unless already numeric,
STRING coerces to a string, BOOLEAN takes the truthiness, and every other
declared type (and a COLOR without r/g/b fields) passes the value through. -/
def convertSwitchValue (vr : Variable) (value : JsValue) : JsValue :=
  if vr.resolvedType = "COLOR" then
    match value with
    | JsValue.vColor r g b => JsValue.vStr (rgbToHex r g b)
    | v => v
  else if vr.resolvedType = "FLOAT" then
    match value with
    | JsValue.vNum q => JsValue.vNum q
    | JsValue.vNaN => JsValue.vNaN
    | v => parseFloatJs (jsToString v)
  else if vr.resolvedType = "STRING" then
    match value with
    | JsValue.vStr s => JsValue.vStr s
    | v => JsValue.vStr (jsToString v)
  else if vr.resolvedType = "BOOLEAN" then
    JsValue.vBool (truthy value)
  else
    value

/-- `convertVariableValue` specialised to a value that is not an alias
marker: the leading `if (!value) return null` falsiness guard followed by
the type switch.  (The alias branch of the source function is unreachable
for such values; the full function is `convertVariableValue` below.) -/
def convertNonAliasValue (vr : Variable) (value : JsValue) : JsValue :=
  if truthy value then convertSwitchValue vr value else JsValue.vNull

/-- `aliasId.split(':')` last segment (tier-2 lookup of the resolvers:
composite id formats like `VariableID:1:23` retried by trailing part). -/
def shortAliasId (aliasId : String) : String :=
  (splitChar ':' aliasId).getLastD ""

/-- The three-tier variable lookup shared by both resolvers: exact id,
then the segment after the last `:`, then any key that is a suffix of the
alias id or has it as a suffix.  Returns the matched map entry. -/
def lookupVariableEntry (vars : List (String × Variable)) (aliasId : String) :
    Option (String × Variable) :=
  match vars.find? (fun p => p.1 == aliasId) with
  | some p => some p
  | none =>
    match vars.find? (fun p => p.1 == shortAliasId aliasId) with
    | some p => some p
    | none =>
      vars.find? (fun p => p.1 == aliasId || strEndsWith p.1 aliasId || strEndsWith aliasId p.1)

/-- `Object.values(collections).find(c => c.id === cid)`. -/
def findCollectionFor (collections : List (String × Collection)) (cid : String) :
    Option Collection :=
  (collections.map Prod.snd).find? (fun c => c.id == cid)

/-- Mode-id selection by collection designation inside
`resolveAliasWithModeContext`: Component themes prefers the theme mode id,
Colour the color mode id, Status the status mode id; otherwise none. -/
def contextModeId (collection : Option Collection) (modeContext : ModeContext) : Option String :=
  match collection with
  | none => none
  | some c =>
    if c.name == "Component themes" && truthyOpt modeContext.themeModeId then
      modeContext.themeModeId
    else if c.name == "Colour" && truthyOpt modeContext.colorModeId then
      modeContext.colorModeId
    else if c.name == "Status" && truthyOpt modeContext.statusModeId then
      modeContext.statusModeId
    else
      none

/-- The `if (!modeId || !referencedVariable.valuesByMode[modeId])` fallback
of both resolvers: keep the candidate mode id only when it is a nonempty
string mapped to a truthy value; otherwise take the first declared mode id
(`Object.keys(valuesByMode)[0]`). -/
def effectiveModeId (cand : Option String) (vbm : List (String × JsValue)) : Option String :=
  match cand with
  | some m =>
    if m != "" && truthy ((lookupStr vbm m).getD JsValue.vNull) then some m
    else (vbm.map Prod.fst).head?
  | none => (vbm.map Prod.fst).head?

/-- `referencedVariable.valuesByMode[modeId]`, where a missing mode id or a
missing entry is `undefined` (modelled as `vNull`). -/
def fetchValue (vbm : List (String × JsValue)) (modeId : Option String) : JsValue :=
  match modeId with
  | some m => (lookupStr vbm m).getD JsValue.vNull
  | none => JsValue.vNull

/-- The alias id stored in a raw value, when the value is an alias marker. -/
def valueAliasId : JsValue → Option String
  | JsValue.vAlias id => some id
  | _ => none

/-- All alias-target ids stored anywhere in the variable map; the
termination measure of the resolvers counts the ones not yet visited. -/
def aliasIdsOf (vars : List (String × Variable)) : Finset String :=
  (vars.flatMap (fun p => p.2.valuesByMode.filterMap (fun e => valueAliasId e.2))).toFinset

/-- `resolveVariableAlias` of the source (legacy single-mode resolver):
cycle guard on the visited set, three-tier lookup, mode fallback, recursion
through alias chains, and conversion of the final concrete value with the
target variable's own declared type. -/
def resolveVariableAlias (aliasId : String) (vars : List (String × Variable))
    (currentModeId : Option String) (seenIds : List String) : JsValue :=
  if h : aliasId ∈ seenIds then JsValue.vNull
  else
    match hfind : lookupVariableEntry vars aliasId with
    | none => JsValue.vNull
    | some entry =>
      match hfetch : fetchValue entry.2.valuesByMode
          (effectiveModeId currentModeId entry.2.valuesByMode) with
      | JsValue.vAlias nextId =>
        resolveVariableAlias nextId vars
          (effectiveModeId currentModeId entry.2.valuesByMode) (aliasId :: seenIds)
      | v => convertNonAliasValue entry.2 v
termination_by ((aliasIdsOf vars ∪ {aliasId}) \ seenIds.toFinset).card
decreasing_by
  simp_wf
  have hmem : entry ∈ vars := by
    unfold lookupVariableEntry at hfind
    rcases h1 : vars.find? (fun p => p.1 == aliasId) with _ | p
    · rw [h1] at hfind
      rcases h2 : vars.find? (fun p => p.1 == shortAliasId aliasId) with _ | p2
      · rw [h2] at hfind
        exact List.mem_of_find?_eq_some hfind
      · rw [h2] at hfind
        simp only [Option.some.injEq] at hfind
        subst hfind
        exact List.mem_of_find?_eq_some h2
    · rw [h1] at hfind
      simp only [Option.some.injEq] at hfind
      subst hfind
      exact List.mem_of_find?_eq_some h1
  have hex : ∃ m, (m, JsValue.vAlias nextId) ∈ entry.2.valuesByMode := by
    unfold fetchValue at hfetch
    rcases hm : effectiveModeId currentModeId entry.2.valuesByMode with _ | m
    · rw [hm] at hfetch
      simp at hfetch
    · rw [hm] at hfetch
      dsimp only at hfetch
      rcases hl : lookupStr entry.2.valuesByMode m with _ | v
      · rw [hl] at hfetch
        simp at hfetch
      · rw [hl] at hfetch
        simp only [Option.getD_some] at hfetch
        subst hfetch
        unfold lookupStr at hl
        rcases hf : entry.2.valuesByMode.find? (fun p => p.1 == m) with _ | p
        · rw [hf] at hl
          cases hl
        · rw [hf] at hl
          simp only [Option.map_some', Option.some.injEq] at hl
          have hpm : p ∈ entry.2.valuesByMode := List.mem_of_find?_eq_some hf
          exact ⟨p.1, by rw [← hl]; simpa using hpm⟩
  have hniA : nextId ∈ aliasIdsOf vars := by
    rcases hex with ⟨m, hmv⟩
    unfold aliasIdsOf
    rw [List.mem_toFinset, List.mem_flatMap]
    refine ⟨entry, hmem, ?_⟩
    rw [List.mem_filterMap]
    exact ⟨(m, JsValue.vAlias nextId), hmv, rfl⟩
  have habs : aliasIdsOf vars ∪ {nextId} = aliasIdsOf vars :=
    Finset.union_eq_left.mpr (Finset.singleton_subset_iff.mpr hniA)
  rw [habs]
  apply Finset.card_lt_card
  rw [Finset.ssubset_def]
  constructor
  · exact Finset.sdiff_subset_sdiff Finset.subset_union_left (Finset.subset_insert _ _)
  · intro hsub
    have hin : aliasId ∈ (aliasIdsOf vars ∪ {aliasId}) \ seenIds.toFinset := by
      rw [Finset.mem_sdiff]
      exact ⟨Finset.mem_union_right _ (Finset.mem_singleton_self _), by simpa using h⟩
    have h2 := hsub hin
    rw [Finset.mem_sdiff] at h2
    exact h2.2 (Finset.mem_insert_self _ _)

/-- `resolveAliasWithModeContext` of the source: like the legacy resolver
but the mode id is first selected from the mode context according to the
target's owning collection (Component themes / Colour / Status) before the
first-mode fallback, and the same context is threaded through the whole
alias chain. -/
def resolveAliasWithModeContext (aliasId : String) (vars : List (String × Variable))
    (collections : List (String × Collection)) (modeContext : ModeContext)
    (seenIds : List String) : JsValue :=
  if h : aliasId ∈ seenIds then JsValue.vNull
  else
    match hfind : lookupVariableEntry vars aliasId with
    | none => JsValue.vNull
    | some entry =>
      match hfetch : fetchValue entry.2.valuesByMode
          (effectiveModeId
            (contextModeId (findCollectionFor collections entry.2.variableCollectionId) modeContext)
            entry.2.valuesByMode) with
      | JsValue.vAlias nextId =>
        resolveAliasWithModeContext nextId vars collections modeContext (aliasId :: seenIds)
      | v => convertNonAliasValue entry.2 v
termination_by ((aliasIdsOf vars ∪ {aliasId}) \ seenIds.toFinset).card
decreasing_by
  simp_wf
  have hmem : entry ∈ vars := by
    unfold lookupVariableEntry at hfind
    rcases h1 : vars.find? (fun p => p.1 == aliasId) with _ | p
    · rw [h1] at hfind
      rcases h2 : vars.find? (fun p => p.1 == shortAliasId aliasId) with _ | p2
      · rw [h2] at hfind
        exact List.mem_of_find?_eq_some hfind
      · rw [h2] at hfind
        simp only [Option.some.injEq] at hfind
        subst hfind
        exact List.mem_of_find?_eq_some h2
    · rw [h1] at hfind
      simp only [Option.some.injEq] at hfind
      subst hfind
      exact List.mem_of_find?_eq_some h1
  have hex : ∃ m, (m, JsValue.vAlias nextId) ∈ entry.2.valuesByMode := by
    unfold fetchValue at hfetch
    rcases hm : effectiveModeId
        (contextModeId (findCollectionFor collections entry.2.variableCollectionId) modeContext)
        entry.2.valuesByMode with _ | m
    · rw [hm] at hfetch
      simp at hfetch
    · rw [hm] at hfetch
      dsimp only at hfetch
      rcases hl : lookupStr entry.2.valuesByMode m with _ | v
      · rw [hl] at hfetch
        simp at hfetch
      · rw [hl] at hfetch
        simp only [Option.getD_some] at hfetch
        subst hfetch
        unfold lookupStr at hl
        rcases hf : entry.2.valuesByMode.find? (fun p => p.1 == m) with _ | p
        · rw [hf] at hl
          cases hl
        · rw [hf] at hl
          simp only [Option.map_some', Option.some.injEq] at hl
          have hpm : p ∈ entry.2.valuesByMode := List.mem_of_find?_eq_some hf
          exact ⟨p.1, by rw [← hl]; simpa using hpm⟩
  have hniA : nextId ∈ aliasIdsOf vars := by
    rcases hex with ⟨m, hmv⟩
    unfold aliasIdsOf
    rw [List.mem_toFinset, List.mem_flatMap]
    refine ⟨entry, hmem, ?_⟩
    rw [List.mem_filterMap]
    exact ⟨(m, JsValue.vAlias nextId), hmv, rfl⟩
  have habs : aliasIdsOf vars ∪ {nextId} = aliasIdsOf vars :=
    Finset.union_eq_left.mpr (Finset.singleton_subset_iff.mpr hniA)
  rw [habs]
  apply Finset.card_lt_card
  rw [Finset.ssubset_def]
  constructor
  · exact Finset.sdiff_subset_sdiff Finset.subset_union_left (Finset.subset_insert _ _)
  · intro hsub
    have hin : aliasId ∈ (aliasIdsOf vars ∪ {aliasId}) \ seenIds.toFinset := by
      rw [Finset.mem_sdiff]
      exact ⟨Finset.mem_union_right _ (Finset.mem_singleton_self _), by simpa using h⟩
    have h2 := hsub hin
    rw [Finset.mem_sdiff] at h2
    exact h2.2 (Finset.mem_insert_self _ _)

/-- `convertVariableValue` of the source: a falsy raw value converts to
null, an alias marker is resolved through `resolveVariableAlias` (null when
no variable map is supplied), any other value goes through the declared
type switch. -/
def convertVariableValue (vr : Variable) (value : JsValue)
    (allVars : Option (List (String × Variable))) (currentModeId : Option String)
    (seenIds : List String) : JsValue :=
  if truthy value then
    match value with
    | JsValue.vAlias id =>
      match allVars with
      | some vs => resolveVariableAlias id vs currentModeId seenIds
      | none => JsValue.vNull
    | v => convertSwitchValue vr v
  else JsValue.vNull

/-- `s.trimStart()`-style removal of leading whitespace (the `\s*` on the
right of a separator in the source's regexes). -/
def trimLeftWS (s : String) : String :=
  ⟨s.data.dropWhile Char.isWhitespace⟩

/-- Removal of trailing whitespace (the `\s*` on the left of a separator in
the source's regexes). -/
def trimRightWS (s : String) : String :=
  ⟨(s.data.reverse.dropWhile Char.isWhitespace).reverse⟩

/-- `s.trim()` of JavaScript. -/
def trimWS (s : String) : String :=
  trimLeftWS (trimRightWS s)

/-- Piece-trimming for `collapseAroundSep`, applied to every piece after
the first: each such piece starts at a separator, so its leading whitespace
goes; every piece before another separator also loses its trailing
whitespace. -/
def collapseTailPieces : List (List Char) → List (List Char)
  | [] => []
  | [p] => [p.dropWhile Char.isWhitespace]
  | p :: q :: rest =>
    ((p.dropWhile Char.isWhitespace).reverse.dropWhile Char.isWhitespace).reverse ::
      collapseTailPieces (q :: rest)

/-- Piece-trimming for `collapseAroundSep` (all pieces). -/
def collapsePieces : List (List Char) → List (List Char)
  | [] => []
  | [p] => [p]
  | p :: q :: rest =>
    (p.reverse.dropWhile Char.isWhitespace).reverse :: collapseTailPieces (q :: rest)

/-- `replace(/\s*SEP\s*/g, SEP)`: whitespace adjacent to each separator
occurrence is deleted.  Splitting at the separator, trimming each piece on
the sides that touch a separator, and rejoining is equivalent to the global
regex replacement. -/
def collapseAroundSep (sep : Char) (s : String) : String :=
  ⟨intercalateChar sep (collapsePieces (splitCharAux sep s.data []))⟩

/-- `replace(/\s+/g, ' ')`: every maximal run of whitespace becomes a
single space. -/
def collapseWS : List Char → List Char
  | [] => []
  | c :: t =>
    if c.isWhitespace then
      match collapseWS t with
      | ' ' :: r2 => ' ' :: r2
      | r => ' ' :: r
    else c :: collapseWS t

/-- `parseVariableName` of the source: normalise backslashes to slashes
(the first regex maps both separators to `/`), strip whitespace around
slashes and hyphens, collapse inner whitespace, trim, then split on `/`
into trimmed nonempty segments.  After the first step no backslash remains,
so the second regex only ever matches a forward slash. -/
def parseVariableName (name : String) : List String :=
  let s1 : String := ⟨name.data.map (fun c => if c == '\\' then '/' else c)⟩
  let s2 := collapseAroundSep '/' s1
  let s3 := collapseAroundSep '-' s2
  let s4 : String := ⟨collapseWS s3.data⟩
  let normalized := trimWS s4
  ((splitChar '/' normalized).map trimWS).filter (fun p => p != "")

/-- `getTokenType` of the source: advisory token-kind classification from
the declared type plus lowercase substring checks on the name. -/
def getTokenType (vr : Variable) : String :=
  let name := toLowerStr vr.name
  if vr.resolvedType = "COLOR" then "color"
  else if vr.resolvedType = "FLOAT" then
    if strIncludes name "font" && strIncludes name "size" then "fontSizes"
    else if strIncludes name "font" && strIncludes name "weight" then "fontWeights"
    else if strIncludes name "space" || strIncludes name "padding" || strIncludes name "margin" then
      "spacing"
    else if strIncludes name "border" && strIncludes name "radius" then "borderRadius"
    else if strIncludes name "border" && strIncludes name "width" then "borderWidth"
    else if strIncludes name "line" && strIncludes name "height" then "lineHeights"
    else "sizing"
  else if vr.resolvedType = "STRING" then
    if strIncludes name "font" && strIncludes name "family" then "fontFamilies"
    else if strIncludes name "font" && strIncludes name "weight" then "fontWeights"
    else "other"
  else "other"

/-- A resolved token record (`{value, type, description?}`). -/
structure Token where
  value : JsValue
  type : String
  description : Option String
deriving DecidableEq, Repr

/-- Builds the token object written by the processors: `description` is
attached only when the variable's description is truthy (nonempty). -/
def mkToken (value : JsValue) (ty : String) (description : String) : Token :=
  ⟨value, ty, if description = "" then none else some description⟩

/-- A node of the output tree: a primitive leaf or a nested string-keyed
object (JS property order preserved). -/
inductive JTree where
  | val (v : JsValue) : JTree
  | obj (entries : List (String × JTree)) : JTree
deriving Repr

/-- The output tree of one collection: a JS object, as an ordered map. -/
abbrev Obj := List (String × JTree)

/-- A token as it is stored in the output tree (`{value, type}` plus the
optional description, in assignment order). -/
def tokenToTree (t : Token) : JTree :=
  JTree.obj ([("value", JTree.val t.value), ("type", JTree.val (JsValue.vStr t.type))] ++
    (match t.description with
     | some d => [("description", JTree.val (JsValue.vStr d))]
     | none => []))

/-- The reserved structural names rejected by `setNestedValue`. -/
def reservedKey (k : String) : Bool :=
  k == "__proto__" || k == "constructor" || k == "prototype"

/-- The error message thrown by `setNestedValue`. -/
def pollutionMsg (k : String) : String :=
  "Prototype pollution attempt detected: " ++ k

/-- The walk step of `setNestedValue`: an existing object entry is entered
in place, a missing or non-object entry is replaced by a fresh `{}`.
(Primitive `val` leaves are treated as non-objects; the engine stores only
primitives in leaves.) -/
def childObj (o : Obj) (k : String) : Obj :=
  match lookupStr o k with
  | some (JTree.obj o2) => o2
  | _ => []

/-- `setNestedValue` of the source, as a pure function on the ordered-map
tree.  Every path segment is checked against the reserved names (the
intermediate segments inside the walk loop, the final segment after it);
an empty path matches JS behaviour of assigning the `"undefined"` property.
A reserved final segment throws after JS has already created intermediate
levels, but the run aborts fatally there, so returning only the error is
observationally faithful. -/
def setNestedValue (o : Obj) : List String → JTree → Except String Obj
  | [], value => Except.ok (setKey o "undefined" value)
  | [k], value =>
    if reservedKey k then Except.error (pollutionMsg k)
    else Except.ok (setKey o k value)
  | k :: k2 :: rest, value =>
    if reservedKey k then Except.error (pollutionMsg k)
    else
      match setNestedValue (childObj o k) (k2 :: rest) value with
      | Except.ok o2 => Except.ok (setKey o k (JTree.obj o2))
      | Except.error e => Except.error e

/-- Lookup of the node stored at a (nonempty) path in the output tree. -/
def getPath (o : Obj) : List String → Option JTree
  | [] => none
  | [k] => lookupStr o k
  | k :: k2 :: rest =>
    match lookupStr o k with
    | some (JTree.obj o2) => getPath o2 (k2 :: rest)
    | _ => none

/-- `getColorModes`: the color dimension, from the collection named
`Colour`, with the hardcoded fallback list when it or its modes are
absent. -/
def getColorModes (collections : List (String × Collection)) : List ModeEntry :=
  match (collections.map Prod.snd).find? (fun c => c.name == "Colour") with
  | some c =>
    match c.modes with
    | some ms => ms.map (fun m => ⟨m.name, some m.modeId⟩)
    | none => [⟨"Blue", none⟩, ⟨"Green", none⟩, ⟨"Red", none⟩, ⟨"Yellow", none⟩]
  | none => [⟨"Blue", none⟩, ⟨"Green", none⟩, ⟨"Red", none⟩, ⟨"Yellow", none⟩]

/-- `getStatusModes`: the status dimension, from the collection named
`Status`, with its hardcoded fallback. -/
def getStatusModes (collections : List (String × Collection)) : List ModeEntry :=
  match (collections.map Prod.snd).find? (fun c => c.name == "Status") with
  | some c =>
    match c.modes with
    | some ms => ms.map (fun m => ⟨m.name, some m.modeId⟩)
    | none =>
      [⟨"Info", none⟩, ⟨"Success", none⟩, ⟨"Warning", none⟩, ⟨"Error", none⟩, ⟨"Generic", none⟩]
  | none =>
    [⟨"Info", none⟩, ⟨"Success", none⟩, ⟨"Warning", none⟩, ⟨"Error", none⟩, ⟨"Generic", none⟩]

/-- `getThemeModes`: the theme dimension, from the collection named
`Component themes`, with its hardcoded fallback. -/
def getThemeModes (collections : List (String × Collection)) : List ModeEntry :=
  match (collections.map Prod.snd).find? (fun c => c.name == "Component themes") with
  | some c =>
    match c.modes with
    | some ms => ms.map (fun m => ⟨m.name, some m.modeId⟩)
    | none => [⟨"Neutral", none⟩, ⟨"Neutral inverse", none⟩, ⟨"Subtle", none⟩, ⟨"Bold", none⟩]
  | none => [⟨"Neutral", none⟩, ⟨"Neutral inverse", none⟩, ⟨"Subtle", none⟩, ⟨"Bold", none⟩]

/-- The display name used for a component-theme variable's own mode entry
(`mode?.name || 'default'`): missing collection modes, an undeclared mode
id, or an empty name all fall back to `default`. -/
def modeDisplayName (collection : Collection) (modeId : String) : String :=
  match collection.modes with
  | none => "default"
  | some ms =>
    match ms.find? (fun m => m.modeId == modeId) with
    | none => "default"
    | some m => if m.name = "" then "default" else m.name

/-- The body of the `valuesByMode` loop of `processStandardVariable` for one
`(modeId, value)` entry: entries whose mode id is not declared on the owning
collection are skipped, a null conversion produces nothing, and otherwise
one token is written at the segmented name, with the mode display name
appended only when the collection has more than one mode and the display
name is not `default`. -/
def processStandardEntry (vr : Variable) (collection : Collection)
    (allVars : List (String × Variable)) (e : String × JsValue) :
    List (List String × Token) :=
  match collection.modes with
  | none => []
  | some ms =>
    match ms.find? (fun m => m.modeId == e.1) with
    | none => []
    | some mode =>
      let modeName := if mode.name = "" then "default" else mode.name
      let convertedValue := convertVariableValue vr e.2 (some allVars) (some e.1) []
      if convertedValue = JsValue.vNull then []
      else
        let namePath := parseVariableName vr.name
        let fullPath :=
          if ms.length > 1 && modeName != "default" then namePath ++ [modeName] else namePath
        [(fullPath, mkToken convertedValue (getTokenType vr) vr.description)]

/-- `processStandardVariable` of the source, as the ordered list of
(path, token) writes it performs. -/
def processStandardVariable (vr : Variable) (collection : Collection)
    (allVars : List (String × Variable)) : List (List String × Token) :=
  vr.valuesByMode.flatMap (processStandardEntry vr collection allVars)

/-- The per-(theme-entry, expansion-mode) resolved value inside
`processComponentThemeVariable`: an alias is resolved under the two-key mode
context (theme mode id plus color or status mode id), a direct value is
converted under the expansion mode id. -/
def componentThemeConverted (vr : Variable) (allVars : List (String × Variable))
    (allCollections : List (String × Collection)) (isStatus : Bool)
    (themeModeId : String) (value : JsValue) (modeToExpand : ModeEntry) : JsValue :=
  match value with
  | JsValue.vAlias aid =>
    let ctx : ModeContext :=
      if isStatus then ⟨some themeModeId, none, modeToExpand.modeId⟩
      else ⟨some themeModeId, modeToExpand.modeId, none⟩
    resolveAliasWithModeContext aid allVars allCollections ctx []
  | v => convertVariableValue vr v (some allVars) modeToExpand.modeId []

/-- The body of the outer `valuesByMode` loop of
`processComponentThemeVariable` for one `(modeId, value)` entry: the entry
is expanded across the status dimension when the lowercased variable name
contains `status`, otherwise across the color dimension, writing one token
per expansion mode at `namePath ++ [theme display name, expansion name]`,
skipping null resolutions. -/
def componentThemeEntryWrites (vr : Variable) (collection : Collection)
    (allVars : List (String × Variable)) (allCollections : List (String × Collection))
    (colorModes statusModes : List ModeEntry) (e : String × JsValue) :
    List (List String × Token) :=
  let namePath := parseVariableName vr.name
  let isStatus := strIncludes (toLowerStr vr.name) "status"
  let modeName := modeDisplayName collection e.1
  let modesToExpand := if isStatus then statusModes else colorModes
  modesToExpand.filterMap (fun modeToExpand =>
    let convertedValue :=
      componentThemeConverted vr allVars allCollections isStatus e.1 e.2 modeToExpand
    if convertedValue = JsValue.vNull then none
    else some (namePath ++ [modeName, modeToExpand.name],
      mkToken convertedValue (getTokenType vr) vr.description))

/-- `processComponentThemeVariable` of the source, as its ordered list of
(path, token) writes. -/
def processComponentThemeVariable (vr : Variable) (collection : Collection)
    (allVars : List (String × Variable)) (allCollections : List (String × Collection))
    (colorModes statusModes : List ModeEntry) : List (List String × Token) :=
  vr.valuesByMode.flatMap
    (componentThemeEntryWrites vr collection allVars allCollections colorModes statusModes)

/-- The per-combination resolved value inside `processLinkVariable`: an
alias is resolved under `{themeModeId, statusModeId}` or
`{themeModeId, colorModeId}`, a direct value is converted under the
expansion mode id. -/
def linkResolved (vr : Variable) (allVars : List (String × Variable))
    (allCollections : List (String × Collection)) (isStatusToken : Bool)
    (themeMode expandMode : ModeEntry) (value : JsValue) : JsValue :=
  match value with
  | JsValue.vAlias aid =>
    let ctx : ModeContext :=
      if isStatusToken then ⟨themeMode.modeId, none, expandMode.modeId⟩
      else ⟨themeMode.modeId, expandMode.modeId, none⟩
    resolveAliasWithModeContext aid allVars allCollections ctx []
  | v => convertVariableValue vr v (some allVars) expandMode.modeId []

/-- The body of the outer `valuesByMode` loop of `processLinkVariable` for
one `(modeId, value)` entry: when the segmented name-path has a segment
exactly equal to `status` the expansion is all theme modes crossed with all
status modes, otherwise all theme modes crossed with all color modes, at
`namePath ++ [theme name, expansion name]`, skipping null resolutions. -/
def linkEntryWrites (vr : Variable) (allVars : List (String × Variable))
    (allCollections : List (String × Collection))
    (colorModes themeModes statusModes : List ModeEntry) (e : String × JsValue) :
    List (List String × Token) :=
  let namePath := parseVariableName vr.name
  let isStatusToken := namePath.contains "status"
  if isStatusToken then
    themeModes.flatMap (fun themeMode =>
      statusModes.filterMap (fun statusMode =>
        let resolvedValue := linkResolved vr allVars allCollections true themeMode statusMode e.2
        if resolvedValue = JsValue.vNull then none
        else some (namePath ++ [themeMode.name, statusMode.name],
          mkToken resolvedValue (getTokenType vr) vr.description)))
  else
    themeModes.flatMap (fun themeMode =>
      colorModes.filterMap (fun colorMode =>
        let resolvedValue := linkResolved vr allVars allCollections false themeMode colorMode e.2
        if resolvedValue = JsValue.vNull then none
        else some (namePath ++ [themeMode.name, colorMode.name],
          mkToken resolvedValue (getTokenType vr) vr.description)))

/-- `processLinkVariable` of the source, as its ordered list of
(path, token) writes.  (The `collection` parameter is present in the source
signature but unused by its body.) -/
def processLinkVariable (vr : Variable) (_collection : Collection)
    (allVars : List (String × Variable)) (allCollections : List (String × Collection))
    (colorModes themeModes statusModes : List ModeEntry) : List (List String × Token) :=
  vr.valuesByMode.flatMap
    (linkEntryWrites vr allVars allCollections colorModes themeModes statusModes)

/-- `if (!tokensByCollection[name]) tokensByCollection[name] = {}`: a new
collection key is appended with an empty tree (an existing entry is always
a truthy object). -/
def ensureCollectionEntry (acc : List (String × Obj)) (name : String) : List (String × Obj) :=
  match lookupStr acc name with
  | some _ => acc
  | none => acc ++ [(name, [])]

/-- Performs a processor's writes against the named collection tree inside
the accumulator, propagating the pollution-guard error. -/
def writeTokensInto (acc : List (String × Obj)) (name : String)
    (ws : List (List String × Token)) : Except String (List (String × Obj)) :=
  ws.foldlM (fun m w =>
    match setNestedValue ((lookupStr m name).getD []) w.1 (tokenToTree w.2) with
    | Except.ok o2 => Except.ok (setKey m name o2)
    | Except.error e => Except.error e) acc

/-- `processVariablesByCollection` of the source: one pass over the
variable map in declaration order; variables of unknown collections are
skipped, a final name segment containing a space is skipped with a warning,
Component-themes variables expand across color/status modes, Link and
Link-menu variables are merged into the `Component themes` output tree, and
everything else is processed under the standard policy.  (The source
computes the three mode catalogs once before the loop; they are pure
functions of `collections`.) -/
def processVariablesByCollection (vars : List (String × Variable))
    (collections : List (String × Collection)) : Except String (List (String × Obj)) :=
  let colorModes := getColorModes collections
  let statusModes := getStatusModes collections
  let themeModes := getThemeModes collections
  vars.foldlM (fun acc p =>
    let vr := p.2
    match lookupStr collections vr.variableCollectionId with
    | none => Except.ok acc
    | some collection =>
      if ((splitChar '/' vr.name).getLastD "").data.contains ' ' then Except.ok acc
      else
        let acc1 := ensureCollectionEntry acc collection.name
        if collection.name = "Component themes" then
          writeTokensInto acc1 "Component themes"
            (processComponentThemeVariable vr collection vars collections colorModes statusModes)
        else if collection.name = "Link" ∨ collection.name = "Link menu" then
          writeTokensInto (ensureCollectionEntry acc1 "Component themes") "Component themes"
            (processLinkVariable vr collection vars collections colorModes themeModes statusModes)
        else
          writeTokensInto acc1 collection.name
            (processStandardVariable vr collection vars)) []

/-- `typeof value === 'number'` (JS `NaN` is a number). -/
def isNumberV : JsValue → Bool
  | JsValue.vNum _ => true
  | JsValue.vNaN => true
  | _ => false

/-- A two-variable graph in which `idA` and `idB` alias each other through
their single mode: the alias cycle of property P2. -/
def cycleVars : List (String × Variable) :=
  [("idA", ⟨"a", "c9", "COLOR", "", [("m", JsValue.vAlias "idB")]⟩),
   ("idB", ⟨"b", "c9", "COLOR", "", [("m", JsValue.vAlias "idA")]⟩)]

/-- A `Colour` collection declaring modes Blue and Green. -/
def colourCollC2 : Collection :=
  ⟨"colId", "Colour", some [⟨"mBlue", "Blue"⟩, ⟨"mGreen", "Green"⟩]⟩

/-- A Colour-collection variable that stores a value only under its first
mode (Blue) and none under Green. -/
def targetC2 : Variable :=
  ⟨"c", "colId", "STRING", "", [("mBlue", JsValue.vStr "blueVal")]⟩

/-- A mode context carrying the Green color mode id. -/
def ctxGreen : ModeContext := ⟨none, some "mGreen", none⟩

/-- The Component-themes collection of the P5 scenario (one theme mode,
Neutral). -/
def p5ThemeColl : Collection := ⟨"ctId", "Component themes", some [⟨"mNeutral", "Neutral"⟩]⟩

/-- The Colour-collection target of the P5 scenario, with distinct values
under Blue (first-declared) and Green. -/
def p5C : Variable :=
  ⟨"core/blue", "colId", "STRING", "",
    [("mBlue", JsValue.vStr "blueVal"), ("mGreen", JsValue.vStr "greenVal")]⟩

/-- The Component-themes variable of the P5 scenario whose Neutral value
aliases the Colour variable. -/
def p5V : Variable := ⟨"button/bg", "ctId", "STRING", "", [("mNeutral", JsValue.vAlias "varC")]⟩

/-- Variable map of the P5 scenario. -/
def p5Vars : List (String × Variable) := [("varV", p5V), ("varC", p5C)]

/-- Collection map of the P5 scenario. -/
def p5Collections : List (String × Collection) :=
  [("ctId", p5ThemeColl), ("colId", colourCollC2)]

/-- The single Colour variable of the end-to-end scenario:
`brand/tint/1` with Blue = (0.82, 0.94, 0.98), Green = (0.87, 0.96, 0.92). -/
def e2eVars : List (String × Variable) :=
  [("v1", ⟨"brand/tint/1", "c1", "COLOR", "",
    [("mBlue", JsValue.vColor 0.82 0.94 0.98), ("mGreen", JsValue.vColor 0.87 0.96 0.92)]⟩)]

/-- The collection map of the end-to-end scenario: one Colour collection
with modes Blue and Green. -/
def e2eCollections : List (String × Collection) :=
  [("c1", ⟨"c1", "Colour", some [⟨"mBlue", "Blue"⟩, ⟨"mGreen", "Green"⟩]⟩)]

/-- The Colour tree the engine actually produces on the end-to-end
scenario. -/
def e2eActualTree : Obj :=
  [("brand", JTree.obj [("tint", JTree.obj [("1", JTree.obj
    [("Blue", JTree.obj [("value", JTree.val (JsValue.vStr "#d1f0fa")),
                         ("type", JTree.val (JsValue.vStr "color"))]),
     ("Green", JTree.obj [("value", JTree.val (JsValue.vStr "#def5eb")),
                          ("type", JTree.val (JsValue.vStr "color"))])])])])]

/-- A two-mode collection one of whose modes is display-named `default`. -/
def c7Coll : Collection := ⟨"c1", "Misc", some [⟨"m1", "default"⟩, ⟨"m2", "dark"⟩]⟩

/-- A variable of that collection with values under both modes. -/
def c7Var : Variable :=
  ⟨"x", "c1", "FLOAT", "", [("m1", JsValue.vNum 5), ("m2", JsValue.vNum 6)]⟩

/-- A Link collection record (no modes needed by `processLinkVariable`). -/
def c8LinkColl : Collection := ⟨"lkId", "Link", none⟩

/-- A Link variable whose name contains the substring `status` but whose
segmented name-path has no segment equal to `status`. -/
def c8Var : Variable := ⟨"link/status-hover", "lkId", "FLOAT", "", [("mDef", JsValue.vNum 5)]⟩

/-- A four-theme-mode Component-themes collection for the cardinality
witness. -/
def c5Coll : Collection :=
  ⟨"ctId", "Component themes",
    some [⟨"t1", "Neutral"⟩, ⟨"t2", "Neutral inverse"⟩, ⟨"t3", "Subtle"⟩, ⟨"t4", "Bold"⟩]⟩

/-- A Component-themes variable with direct (non-alias) values under four
theme modes, name free of `status`. -/
def c5Var : Variable :=
  ⟨"button/bg", "ctId", "FLOAT", "",
    [("t1", JsValue.vNum 1), ("t2", JsValue.vNum 2), ("t3", JsValue.vNum 3), ("t4", JsValue.vNum 4)]⟩

/-- A four-mode color dimension for the cardinality witness. -/
def c5Colors : List ModeEntry :=
  [⟨"Blue", some "cb"⟩, ⟨"Green", some "cg"⟩, ⟨"Red", some "cr"⟩, ⟨"Yellow", some "cy"⟩]

/-- A one-mode collection, for the orphaned-mode witness. -/
def c10Coll : Collection := ⟨"c1", "Misc", some [⟨"m1", "light"⟩]⟩

/-- A variable carrying a stale `valuesByMode` entry (`stale`) whose mode id
is not declared on its collection. -/
def c10Var : Variable :=
  ⟨"x", "c1", "FLOAT", "", [("m1", JsValue.vNum 5), ("stale", JsValue.vNum 7)]⟩

/-! Helper lemmas shared by the claim theorems. -/

/-- Setting a key makes it retrievable. -/
theorem lookupStr_setKey_self {α : Type} (l : List (String × α)) (k : String) (v : α) :
    lookupStr (setKey l k v) k = some v := by
  induction l with
  | nil => simp [setKey, lookupStr, List.find?]
  | cons p t ih =>
    obtain ⟨k2, v2⟩ := p
    by_cases h : k2 == k
    · simp [setKey, h, lookupStr, List.find?]
    · simp only [setKey, h, if_false, Bool.false_eq_true]
      simpa [lookupStr, List.find?, h] using ih

/-- A `filterMap` in which every element maps to `some` with a known first
component projects to a plain `map` of first components. -/
theorem map_fst_filterMap_eq {α β γ : Type} (l : List α) (f : α → Option (β × γ)) (g : α → β)
    (h : ∀ x ∈ l, ∃ t, f x = some (g x, t)) :
    (l.filterMap f).map Prod.fst = l.map g := by
  induction l with
  | nil => rfl
  | cons a t ih =>
    obtain ⟨c, hc⟩ := h a (List.mem_cons_self a t)
    simp only [List.filterMap_cons, hc, List.map_cons]
    rw [ih (fun x hx => h x (List.mem_cons_of_mem a hx))]

/-- Two-level version of `map_fst_filterMap_eq` for the theme × expansion
cross products. -/
theorem map_fst_flatMap_filterMap {α β γ δ : Type} (l1 : List α) (l2 : List β)
    (f : α → β → Option (γ × δ)) (g : α → β → γ)
    (h : ∀ a ∈ l1, ∀ b ∈ l2, ∃ t, f a b = some (g a b, t)) :
    ((l1.flatMap fun a => l2.filterMap (f a)).map Prod.fst) =
      l1.flatMap fun a => l2.map (g a) := by
  induction l1 with
  | nil => rfl
  | cons a t ih =>
    simp only [List.flatMap_cons, List.map_append]
    rw [map_fst_filterMap_eq l2 (f a) (g a) (h a (List.mem_cons_self a t))]
    rw [ih (fun x hx => h x (List.mem_cons_of_mem a hx))]

/-- A concatenation of per-element lists is duplicate-free when each inner
list is and inner lists of distinct elements are pairwise disjoint. -/
theorem nodup_flatMap_of {α β : Type} (l : List α) (f : α → List β)
    (h1 : ∀ a ∈ l, (f a).Nodup)
    (h2 : l.Pairwise (fun a b => ∀ x ∈ f a, x ∉ f b)) :
    (l.flatMap f).Nodup := by
  induction l with
  | nil => simp
  | cons a t ih =>
    simp only [List.flatMap_cons]
    rw [List.nodup_append]
    refine ⟨h1 a (List.mem_cons_self a t), ?_, ?_⟩
    · exact ih (fun x hx => h1 x (List.mem_cons_of_mem a hx)) (List.Pairwise.sublist (List.sublist_cons_self a t) h2)
    · intro x hx hx2
      rw [List.mem_flatMap] at hx2
      obtain ⟨b, hb, hxb⟩ := hx2
      exact (List.rel_of_pairwise_cons h2 hb) x hx hxb

/-- `convertVariableValue` on a non-alias value agrees with the inlined
non-alias specialisation used inside the resolvers. -/
theorem convertVariableValue_eq_nonAlias (vr : Variable) (value : JsValue)
    (allVars : Option (List (String × Variable))) (currentModeId : Option String)
    (seenIds : List String) (h : valueAliasId value = none) :
    convertVariableValue vr value allVars currentModeId seenIds = convertNonAliasValue vr value := by
  cases value <;> simp_all [convertVariableValue, convertNonAliasValue, valueAliasId]

/-! Claim theorems. -/

/-- C1: alias resolution terminates on every input — the embedded
`resolveAliasWithModeContext` is a total function (its termination is
established by the well-founded measure counting unvisited alias ids), so
every call returns a result; and on a graph containing the alias cycle
`idA -> idB -> idA`, both variables resolve to null for every mode context
instead of looping. -/
theorem claim1_resolve_terminates_cycle_null :
    (∀ (aliasId : String) (vars : List (String × Variable))
       (collections : List (String × Collection)) (ctx : ModeContext) (seen : List String),
       ∃ v, resolveAliasWithModeContext aliasId vars collections ctx seen = v) ∧
    (∀ ctx : ModeContext,
       resolveAliasWithModeContext "idA" cycleVars [] ctx [] = JsValue.vNull ∧
       resolveAliasWithModeContext "idB" cycleVars [] ctx [] = JsValue.vNull) := by
  refine ⟨fun a vs cs ctx seen => ⟨_, rfl⟩, fun ctx => ⟨?_, ?_⟩⟩ <;>
    simp [resolveAliasWithModeContext, cycleVars, lookupVariableEntry, shortAliasId,
      findCollectionFor, contextModeId, effectiveModeId, fetchValue, lookupStr,
      strEndsWith, List.find?, splitChar, splitCharAux]

/-- C3 counterexample: the raw value `0` is concrete and non-null, yet
`convertVariableValue` returns null for it (the falsiness guard, not a
null/undefined check), refuting the claim that only a null/undefined raw
value yields null. -/
theorem claim3_counterexample :
    convertVariableValue ⟨"x", "c", "FLOAT", "", []⟩ (JsValue.vNum 0) none none [] =
      JsValue.vNull ∧ JsValue.vNum 0 ≠ JsValue.vNull := by
  constructor
  · rfl
  · decide

/-- C6: the engine is deterministic — `processVariablesByCollection` is a
pure function of the variable and collection maps, so two runs on the same
raw graph produce identical token trees (same paths, token values, types
and descriptions). -/
theorem claim6_deterministic (vars : List (String × Variable))
    (collections : List (String × Collection)) :
    processVariablesByCollection vars collections = processVariablesByCollection vars collections :=
  rfl

/-- C10: a `valuesByMode` entry whose mode id is not declared on the owning
collection produces no token at all under the standard policy — its loop
body returns nothing, for every raw value (so the skip happens before any
value conversion). -/
theorem claim10_orphaned_mode_skip (vr : Variable) (collection : Collection)
    (allVars : List (String × Variable)) (modeId : String) (value : JsValue)
    (h : ∀ ms, collection.modes = some ms → ∀ m ∈ ms, m.modeId ≠ modeId) :
    processStandardEntry vr collection allVars (modeId, value) = [] := by
  unfold processStandardEntry
  dsimp only
  cases hms : collection.modes with
  | none => rfl
  | some ms =>
    dsimp only
    cases hf : ms.find? (fun m => m.modeId == modeId) with
    | none => rfl
    | some m =>
      exfalso
      have hm := List.mem_of_find?_eq_some hf
      have hp := List.find?_some hf
      exact h ms hms m hm (by simpa using hp)

/-- C10 witness: the stale entry of the concrete one-mode collection
produces no token. -/
theorem claim10_witness :
    processStandardEntry c10Var c10Coll [] ("stale", JsValue.vNum 7) = [] :=
  claim10_orphaned_mode_skip c10Var c10Coll [] "stale" (JsValue.vNum 7)
    (by intro ms hms m hm; simp [c10Coll] at hms; subst hms; simp at hm; subst hm; decide)

/-- A `parseFloat` result is always a JS number (possibly NaN). -/
theorem parseFloatJs_isNumber (s : String) : isNumberV (parseFloatJs s) = true := by
  simp only [parseFloatJs]
  split <;> rfl

/-- C3 amended: for every variable and concrete (non-alias) raw value,
`convertVariableValue` returns null exactly when the raw value is falsy
(null/undefined, `0`, NaN, the empty string, or `false`) — not only when it
is null/undefined; for truthy values the result is determined by the
declared type: FLOAT yields a number (coerced via `parseFloat` if
necessary), STRING yields a string, BOOLEAN yields `true`, COLOR with an
r/g/b object yields its hex string (and passes any other value through),
and every other declared type passes the raw value through unchanged. -/
theorem claim3_amended_convert (vr : Variable) (value : JsValue)
    (allVars : Option (List (String × Variable))) (currentModeId : Option String)
    (seenIds : List String) (hna : valueAliasId value = none) :
    (convertVariableValue vr value allVars currentModeId seenIds = JsValue.vNull ↔
      truthy value = false) ∧
    (truthy value = true →
      (vr.resolvedType = "FLOAT" →
        isNumberV (convertVariableValue vr value allVars currentModeId seenIds) = true) ∧
      (vr.resolvedType = "STRING" →
        ∃ s, convertVariableValue vr value allVars currentModeId seenIds = JsValue.vStr s) ∧
      (vr.resolvedType = "BOOLEAN" →
        convertVariableValue vr value allVars currentModeId seenIds = JsValue.vBool true) ∧
      (vr.resolvedType = "COLOR" →
        (∀ r g b, value = JsValue.vColor r g b →
          convertVariableValue vr value allVars currentModeId seenIds =
            JsValue.vStr (rgbToHex r g b)) ∧
        ((∀ r g b, value ≠ JsValue.vColor r g b) →
          convertVariableValue vr value allVars currentModeId seenIds = value)) ∧
      (vr.resolvedType ≠ "COLOR" → vr.resolvedType ≠ "FLOAT" → vr.resolvedType ≠ "STRING" →
        vr.resolvedType ≠ "BOOLEAN" →
        convertVariableValue vr value allVars currentModeId seenIds = value)) := by
  rw [convertVariableValue_eq_nonAlias vr value allVars currentModeId seenIds hna]
  unfold convertNonAliasValue
  constructor
  · by_cases ht : truthy value = true
    · rw [if_pos ht]
      have hpf := parseFloatJs_isNumber (jsToString value)
      constructor
      · intro hnull
        exfalso
        unfold convertSwitchValue at hnull
        split_ifs at hnull with h1 h2 h3 h4 <;> cases value <;>
          simp_all [truthy, isNumberV]
      · intro hfalse
        rw [ht] at hfalse
        cases hfalse
    · rw [if_neg ht]
      simp only [Bool.not_eq_true] at ht
      simp [ht]
  · intro ht
    rw [if_pos ht]
    refine ⟨?_, ?_, ?_, ?_, ?_⟩
    · intro hty
      unfold convertSwitchValue
      rw [if_neg (by rw [hty]; decide), if_pos hty]
      have := parseFloatJs_isNumber (jsToString value)
      cases value <;> simp_all [isNumberV]
    · intro hty
      unfold convertSwitchValue
      rw [if_neg (by rw [hty]; decide), if_neg (by rw [hty]; decide), if_pos hty]
      cases value <;> simp_all
    · intro hty
      unfold convertSwitchValue
      rw [if_neg (by rw [hty]; decide), if_neg (by rw [hty]; decide),
        if_neg (by rw [hty]; decide), if_pos hty, ht]
    · intro hty
      unfold convertSwitchValue
      rw [if_pos hty]
      constructor
      · intro r g b hv
        subst hv
        rfl
      · intro hnot
        cases value <;> first | rfl | (exfalso; exact hnot _ _ _ rfl)
    · intro h1 h2 h3 h4
      unfold convertSwitchValue
      rw [if_neg h1, if_neg h2, if_neg h3, if_neg h4]

/-- C3 amended witness: a truthy number under a BOOLEAN declared type
converts to `true`. -/
theorem claim3_amended_witness :
    convertVariableValue ⟨"x", "c", "BOOLEAN", "", []⟩ (JsValue.vNum 3) none none [] =
      JsValue.vBool true :=
  ((claim3_amended_convert ⟨"x", "c", "BOOLEAN", "", []⟩ (JsValue.vNum 3) none none [] rfl).2
    (by decide)).2.2.1 rfl

/-- C9: `setNestedValue` throws exactly when some segment of the path —
intermediate or final — is one of the reserved structural names
`__proto__`, `constructor`, `prototype`; for every nonempty path free of
reserved names it succeeds and stores the token at the path, creating
intermediate mapping levels as needed. -/
theorem claim9_setNestedValue_guard (o : Obj) (path : List String) (v : JTree) :
    ((∃ msg, setNestedValue o path v = Except.error msg) ↔ ∃ k ∈ path, reservedKey k = true) ∧
    ((∀ k ∈ path, reservedKey k = false) → path ≠ [] →
      ∃ o2, setNestedValue o path v = Except.ok o2 ∧ getPath o2 path = some v) := by
  induction path generalizing o with
  | nil =>
    constructor
    · constructor
      · rintro ⟨msg, hmsg⟩
        cases hmsg
      · rintro ⟨k, hk, _⟩
        cases hk
    · intro _ hne
      cases hne rfl
  | cons k rest ih =>
    cases rest with
    | nil =>
      by_cases hr : reservedKey k = true
      · constructor
        · constructor
          · intro _
            exact ⟨k, by simp, hr⟩
          · intro _
            exact ⟨pollutionMsg k, by simp [setNestedValue, hr]⟩
        · intro hall _
          have := hall k (by simp)
          rw [hr] at this
          cases this
      · have hr' : reservedKey k = false := by simpa using hr
        constructor
        · constructor
          · rintro ⟨msg, hmsg⟩
            simp [setNestedValue, hr'] at hmsg
          · rintro ⟨k2, hk2, hres⟩
            simp at hk2
            subst hk2
            rw [hres] at hr'
            cases hr'
        · intro _ _
          refine ⟨setKey o k v, ?_, ?_⟩
          · simp [setNestedValue, hr']
          · simpa [getPath] using lookupStr_setKey_self o k v
    | cons k2 rest2 =>
      by_cases hr : reservedKey k = true
      · constructor
        · constructor
          · intro _
            exact ⟨k, by simp, hr⟩
          · intro _
            exact ⟨pollutionMsg k, by simp [setNestedValue, hr]⟩
        · intro hall _
          have := hall k (by simp)
          rw [hr] at this
          cases this
      · have hr' : reservedKey k = false := by simpa using hr
        obtain ⟨ih1, ih2⟩ := ih (childObj o k)
        constructor
        · constructor
          · rintro ⟨msg, hmsg⟩
            simp only [setNestedValue, hr', Bool.false_eq_true, if_false] at hmsg
            cases hrec : setNestedValue (childObj o k) (k2 :: rest2) v with
            | ok o2 =>
              rw [hrec] at hmsg
              cases hmsg
            | error e =>
              obtain ⟨k3, hk3, hres3⟩ := ih1.mp ⟨e, hrec⟩
              exact ⟨k3, List.mem_cons_of_mem k hk3, hres3⟩
          · rintro ⟨k3, hk3, hres3⟩
            rcases List.mem_cons.mp hk3 with h | h
            · subst h
              rw [hres3] at hr'
              cases hr'
            · obtain ⟨e, he⟩ := ih1.mpr ⟨k3, h, hres3⟩
              exact ⟨e, by simp [setNestedValue, hr', he]⟩
        · intro hall _
          obtain ⟨o2, ho2, hget⟩ :=
            ih2 (fun x hx => hall x (List.mem_cons_of_mem k hx)) (by simp)
          refine ⟨setKey o k (JTree.obj o2), ?_, ?_⟩
          · simp [setNestedValue, hr', ho2]
          · simp [getPath, lookupStr_setKey_self, hget]

/-- C9 witness: a concrete reserved-free two-segment path is stored
without error. -/
theorem claim9_witness :
    (∀ k ∈ ["a", "b"], reservedKey k = false) ∧ (["a", "b"] : List String) ≠ [] ∧
    ∃ o2, setNestedValue [] ["a", "b"] (JTree.val (JsValue.vNum 1)) = Except.ok o2 ∧
      getPath o2 ["a", "b"] = some (JTree.val (JsValue.vNum 1)) :=
  ⟨by decide, by decide,
    (claim9_setNestedValue_guard [] ["a", "b"] (JTree.val (JsValue.vNum 1))).2
      (by decide) (by decide)⟩

/-- C7 counterexample: `c7Coll` declares two modes, yet the token of its
mode display-named `default` is written at the bare name-path with no mode
segment — refuting "appended if and only if the collection declares more
than one mode". -/
theorem claim7_counterexample :
    (∃ ms, c7Coll.modes = some ms ∧ ms.length > 1) ∧
    (processStandardVariable c7Var c7Coll []).map Prod.fst = [["x"], ["x", "dark"]] ∧
    ["x", "default"] ∉ (processStandardVariable c7Var c7Coll []).map Prod.fst := by
  refine ⟨⟨_, rfl, by decide⟩, rfl, by decide⟩

/-- C7 amended: under the standard policy a processed mode's token carries
the mode display name as an extra trailing segment if and only if the
owning collection declares more than one mode AND the display name is not
`default`; otherwise the token sits at the bare name-path. -/
theorem claim7_amended_mode_suffix (vr : Variable) (collection : Collection)
    (allVars : List (String × Variable)) (e : String × JsValue) (ms : List Mode) (mode : Mode)
    (modeName : String)
    (hms : collection.modes = some ms)
    (hfind : ms.find? (fun m => m.modeId == e.1) = some mode)
    (hmn : modeName = (if mode.name = "" then "default" else mode.name))
    (hconv : convertVariableValue vr e.2 (some allVars) (some e.1) [] ≠ JsValue.vNull) :
    ((processStandardEntry vr collection allVars e).map Prod.fst =
        [parseVariableName vr.name ++ [modeName]] ↔ ms.length > 1 ∧ modeName ≠ "default") ∧
    ((processStandardEntry vr collection allVars e).map Prod.fst =
        [parseVariableName vr.name] ↔ ¬(ms.length > 1 ∧ modeName ≠ "default")) := by
  have hentry : processStandardEntry vr collection allVars e =
      [(if (decide (ms.length > 1) && modeName != "default") = true then
          parseVariableName vr.name ++ [modeName] else parseVariableName vr.name,
        mkToken (convertVariableValue vr e.2 (some allVars) (some e.1) [])
          (getTokenType vr) vr.description)] := by
    unfold processStandardEntry
    rw [hms]
    dsimp only
    rw [hfind]
    dsimp only
    rw [if_neg hconv, ← hmn]
  have hne : parseVariableName vr.name ++ [modeName] ≠ parseVariableName vr.name := by
    intro h
    have := congrArg List.length h
    simp at this
  by_cases hc : ms.length > 1 ∧ modeName ≠ "default"
  · have hb : (decide (ms.length > 1) && modeName != "default") = true := by
      simp only [Bool.and_eq_true, decide_eq_true_eq, bne_iff_ne]
      exact hc
    rw [hentry, if_pos hb]
    constructor
    · simp only [List.map_cons, List.map_nil]
      exact ⟨fun _ => hc, fun _ => trivial⟩
    · simp only [List.map_cons, List.map_nil]
      constructor
      · intro h
        injection h with h1 _
        exact absurd h1 hne
      · intro h
        exact absurd hc h
  · have hb : ¬((decide (ms.length > 1) && modeName != "default") = true) := by
      simp only [Bool.and_eq_true, decide_eq_true_eq, bne_iff_ne]
      exact hc
    rw [hentry, if_neg hb]
    constructor
    · simp only [List.map_cons, List.map_nil]
      constructor
      · intro h
        injection h with h1 _
        exact absurd h1.symm hne
      · intro h
        exact absurd h hc
    · simp only [List.map_cons, List.map_nil]
      exact ⟨fun _ => hc, fun _ => trivial⟩

/-- C7 amended witness: the `dark` mode of the two-mode collection gets the
mode suffix. -/
theorem claim7_amended_witness :
    ((processStandardEntry c7Var c7Coll [] ("m2", JsValue.vNum 6)).map Prod.fst =
        [parseVariableName c7Var.name ++ ["dark"]] ↔
      (([⟨"m1", "default"⟩, ⟨"m2", "dark"⟩] : List Mode).length > 1 ∧ ("dark" : String) ≠ "default")) ∧
    ((processStandardEntry c7Var c7Coll [] ("m2", JsValue.vNum 6)).map Prod.fst =
        [parseVariableName c7Var.name] ↔
      ¬(([⟨"m1", "default"⟩, ⟨"m2", "dark"⟩] : List Mode).length > 1 ∧ ("dark" : String) ≠ "default")) :=
  claim7_amended_mode_suffix c7Var c7Coll [] ("m2", JsValue.vNum 6)
    [⟨"m1", "default"⟩, ⟨"m2", "dark"⟩] ⟨"m2", "dark"⟩ "dark" rfl rfl rfl (by decide)

/-- C8 counterexample: the Link variable `link/status-hover` has `status`
in its (lowercased) name, yet the engine expands it across theme × COLOR
modes — a `Blue` path is written and no `Info` (status) path — because the
source tests `namePath.includes('status')`, i.e. a whole path segment,
not a substring. -/
theorem claim8_counterexample :
    strIncludes (toLowerStr c8Var.name) "status" = true ∧
    (["link", "status-hover", "Neutral", "Blue"] ∈
      (processLinkVariable c8Var c8LinkColl [] []
        (getColorModes []) (getThemeModes []) (getStatusModes [])).map Prod.fst) ∧
    (["link", "status-hover", "Neutral", "Info"] ∉
      (processLinkVariable c8Var c8LinkColl [] []
        (getColorModes []) (getThemeModes []) (getStatusModes [])).map Prod.fst) := by
  refine ⟨rfl, by decide, by decide⟩

/-- C8 amended: a Link/Link-menu raw-value entry expands across all theme
modes crossed with all status modes exactly when the variable's segmented
name-path contains a segment equal to `status` (writing one token per
(theme, status) pair at namePath ++ [theme name, status name], given
non-null resolutions); otherwise it expands across all theme modes crossed
with all color modes. -/
theorem claim8_amended_status_expansion (vr : Variable) (allVars : List (String × Variable))
    (allCollections : List (String × Collection))
    (colorModes themeModes statusModes : List ModeEntry) (e : String × JsValue) :
    ("status" ∈ parseVariableName vr.name →
      (∀ tm ∈ themeModes, ∀ sm ∈ statusModes,
        linkResolved vr allVars allCollections true tm sm e.2 ≠ JsValue.vNull) →
      (linkEntryWrites vr allVars allCollections colorModes themeModes statusModes e).map Prod.fst =
        themeModes.flatMap (fun tm => statusModes.map (fun sm =>
          parseVariableName vr.name ++ [tm.name, sm.name]))) ∧
    ("status" ∉ parseVariableName vr.name →
      (∀ tm ∈ themeModes, ∀ cm ∈ colorModes,
        linkResolved vr allVars allCollections false tm cm e.2 ≠ JsValue.vNull) →
      (linkEntryWrites vr allVars allCollections colorModes themeModes statusModes e).map Prod.fst =
        themeModes.flatMap (fun tm => colorModes.map (fun cm =>
          parseVariableName vr.name ++ [tm.name, cm.name]))) := by
  constructor
  · intro hmem hnn
    have hct : (parseVariableName vr.name).contains "status" = true := by
      simp [List.contains, List.elem_iff, hmem]
    unfold linkEntryWrites
    dsimp only
    rw [hct]
    simp only [if_true]
    exact map_fst_flatMap_filterMap themeModes statusModes _ _
      (fun tm htm sm hsm =>
        ⟨mkToken (linkResolved vr allVars allCollections true tm sm e.2) (getTokenType vr)
          vr.description, by rw [if_neg (hnn tm htm sm hsm)]⟩)
  · intro hmem hnn
    have hct : (parseVariableName vr.name).contains "status" = false := by
      simp [List.contains, List.elem_iff, hmem]
    unfold linkEntryWrites
    dsimp only
    rw [hct]
    simp only [Bool.false_eq_true, if_false]
    exact map_fst_flatMap_filterMap themeModes colorModes _ _
      (fun tm htm cm hcm =>
        ⟨mkToken (linkResolved vr allVars allCollections false tm cm e.2) (getTokenType vr)
          vr.description, by rw [if_neg (hnn tm htm cm hcm)]⟩)

/-- C8 amended witness: a status-free Link name expands across theme ×
color. -/
theorem claim8_amended_witness :
    (linkEntryWrites ⟨"link/plain", "lk", "FLOAT", "", []⟩ [] [] [⟨"Blue", none⟩]
      [⟨"Neutral", none⟩] [] ("m", JsValue.vNum 5)).map Prod.fst =
      ([⟨"Neutral", none⟩] : List ModeEntry).flatMap (fun tm =>
        ([⟨"Blue", none⟩] : List ModeEntry).map (fun cm =>
          parseVariableName "link/plain" ++ [tm.name, cm.name])) :=
  (claim8_amended_status_expansion ⟨"link/plain", "lk", "FLOAT", "", []⟩ [] [] [⟨"Blue", none⟩]
    [⟨"Neutral", none⟩] [] ("m", JsValue.vNum 5)).2 (by decide) (by decide)

/-- C5: a Component-themes variable with 4 theme-mode entries whose name
does not contain `status`, expanded against a 4-mode color dimension with
every (theme, color) resolution non-null, writes exactly 16 tokens, one per
pair, at the name-path extended with [theme display name, color name] in
that order; with distinct theme display names and distinct color names the
16 paths are pairwise distinct. -/
theorem claim5_mode_expansion (vr : Variable) (collection : Collection)
    (allVars : List (String × Variable)) (allCollections : List (String × Collection))
    (colorModes statusModes : List ModeEntry)
    (hlen : vr.valuesByMode.length = 4)
    (hcm : colorModes.length = 4)
    (hst : strIncludes (toLowerStr vr.name) "status" = false)
    (hnn : ∀ e ∈ vr.valuesByMode, ∀ cm ∈ colorModes,
      componentThemeConverted vr allVars allCollections false e.1 e.2 cm ≠ JsValue.vNull)
    (hnodT : (vr.valuesByMode.map (fun e => modeDisplayName collection e.1)).Nodup)
    (hnodC : (colorModes.map ModeEntry.name).Nodup) :
    (processComponentThemeVariable vr collection allVars allCollections colorModes
      statusModes).length = 16 ∧
    (processComponentThemeVariable vr collection allVars allCollections colorModes
      statusModes).map Prod.fst =
      vr.valuesByMode.flatMap (fun e => colorModes.map (fun cm =>
        parseVariableName vr.name ++ [modeDisplayName collection e.1, cm.name])) ∧
    ((processComponentThemeVariable vr collection allVars allCollections colorModes
      statusModes).map Prod.fst).Nodup := by
  have hmap : (processComponentThemeVariable vr collection allVars allCollections colorModes
      statusModes).map Prod.fst =
      vr.valuesByMode.flatMap (fun e => colorModes.map (fun cm =>
        parseVariableName vr.name ++ [modeDisplayName collection e.1, cm.name])) := by
    unfold processComponentThemeVariable componentThemeEntryWrites
    dsimp only
    simp only [hst, Bool.false_eq_true, if_false]
    exact map_fst_flatMap_filterMap vr.valuesByMode colorModes _ _
      (fun e he cm hcm2 =>
        ⟨mkToken (componentThemeConverted vr allVars allCollections false e.1 e.2 cm)
          (getTokenType vr) vr.description, by rw [if_neg (hnn e he cm hcm2)]⟩)
  refine ⟨?_, hmap, ?_⟩
  · have h1 : (processComponentThemeVariable vr collection allVars allCollections colorModes
        statusModes).length =
        ((processComponentThemeVariable vr collection allVars allCollections colorModes
          statusModes).map Prod.fst).length := (List.length_map _ _).symm
    rw [h1, hmap, List.length_flatMap]
    simp only [Function.comp_def, List.length_map, hcm]
    rw [List.map_const', List.sum_replicate, hlen]
    decide
  · rw [hmap]
    apply nodup_flatMap_of
    · intro e _
      rw [show (colorModes.map (fun cm =>
          parseVariableName vr.name ++ [modeDisplayName collection e.1, cm.name])) =
          (colorModes.map ModeEntry.name).map (fun nm =>
            parseVariableName vr.name ++ [modeDisplayName collection e.1, nm]) by
        rw [List.map_map]
        rfl]
      apply List.Nodup.map _ hnodC
      intro a b hab
      have := List.append_cancel_left hab
      simpa using this
    · have hpw : vr.valuesByMode.Pairwise (fun e1 e2 =>
          modeDisplayName collection e1.1 ≠ modeDisplayName collection e2.1) :=
        List.pairwise_map.mp hnodT
      apply hpw.imp
      intro e1 e2 hne x hx1 hx2
      rw [List.mem_map] at hx1 hx2
      obtain ⟨c1, _, h1⟩ := hx1
      obtain ⟨c2, _, h2⟩ := hx2
      rw [← h1] at h2
      have := List.append_cancel_left h2
      simp only [List.cons.injEq] at this
      exact hne this.1.symm

/-- C5 witness: the concrete four-by-four expansion yields 16 tokens. -/
theorem claim5_witness :
    (processComponentThemeVariable c5Var c5Coll [] [] c5Colors []).length = 16 :=
  (claim5_mode_expansion c5Var c5Coll [] [] c5Colors [] (by decide) (by decide) rfl
    (by decide) (by decide) (by decide)).1

/-- C2 counterexample: the alias target `targetC2` lives in the `Colour`
collection and the context carries the (truthy) Green mode id, yet its
`valuesByMode` has no entry at `mGreen`, so resolution falls back to the
first-declared mode and returns the Blue value — refuting the claim that
resolution selects the value at exactly the context's color-mode-id for
every such alias. -/
theorem claim2_counterexample :
    colourCollC2.name = "Colour" ∧
    truthyOpt ctxGreen.colorModeId = true ∧
    lookupStr targetC2.valuesByMode "mGreen" = none ∧
    (targetC2.valuesByMode.map Prod.fst).head? = some "mBlue" ∧
    resolveAliasWithModeContext "varC" [("varC", targetC2)] [("colId", colourCollC2)]
      ctxGreen [] = JsValue.vStr "blueVal" := by
  refine ⟨rfl, rfl, rfl, rfl, ?_⟩
  simp [resolveAliasWithModeContext, targetC2, colourCollC2, ctxGreen, lookupVariableEntry,
    shortAliasId, findCollectionFor, contextModeId, effectiveModeId, fetchValue, lookupStr,
    strEndsWith, List.find?, splitChar, splitCharAux, truthyOpt, truthy,
    convertNonAliasValue, convertSwitchValue]

/-- C2 amended: for an alias target in a collection named `Colour` under a
context carrying a nonempty color-mode-id, resolution selects exactly that
mode id provided the target stores a truthy value under it (otherwise it
falls back to the target's first-declared mode); and the concrete P5
instance holds as stated: a Component-themes variable whose Neutral value
aliases a Colour variable resolves, under (theme Neutral, color Green), to
the target's Green value rather than its first-declared (Blue) value. -/
theorem claim2_amended_mode_selection :
    (∀ (c : Collection) (ctx : ModeContext) (vbm : List (String × JsValue)) (m : String),
       c.name = "Colour" → ctx.colorModeId = some m → m ≠ "" →
       truthy ((lookupStr vbm m).getD JsValue.vNull) = true →
       effectiveModeId (contextModeId (some c) ctx) vbm = some m) ∧
    componentThemeConverted p5V p5Vars p5Collections false "mNeutral" (JsValue.vAlias "varC")
      ⟨"Green", some "mGreen"⟩ = JsValue.vStr "greenVal" := by
  constructor
  · intro c ctx vbm m hc hm hne htr
    unfold contextModeId
    dsimp only
    rw [hc, hm]
    have hto : truthyOpt (some m) = true := by
      simp [truthyOpt, hne]
    simp only [hto, Bool.and_true]
    rw [show (("Colour" == "Component themes") && truthyOpt ctx.themeModeId) = false by
      simp]
    simp only [Bool.false_eq_true, if_false, if_pos rfl]
    unfold effectiveModeId
    simp [hne, htr]
  · simp [componentThemeConverted, resolveAliasWithModeContext, p5V, p5C, p5Vars,
      p5Collections, p5ThemeColl, colourCollC2, lookupVariableEntry, shortAliasId,
      findCollectionFor, contextModeId, effectiveModeId, fetchValue, lookupStr,
      strEndsWith, List.find?, splitChar, splitCharAux, truthyOpt, truthy,
      convertNonAliasValue, convertSwitchValue]

/-- C2 amended witness: the selection rule applied at a concrete Colour
collection, Green context, and a target holding a truthy Green value. -/
theorem claim2_amended_witness :
    effectiveModeId (contextModeId (some colourCollC2) ctxGreen)
      [("mGreen", JsValue.vStr "g")] = some "mGreen" :=
  claim2_amended_mode_selection.1 colourCollC2 ctxGreen [("mGreen", JsValue.vStr "g")]
    "mGreen" rfl rfl (by decide) rfl

/-- `natToHexAux` with positive fuel on a single hex digit. -/
theorem natToHexAux_small (fuel n : Nat) (hf : 0 < fuel) (hn : n < 16) :
    natToHexAux fuel n = [hexDigitChar n] := by
  cases fuel with
  | zero => omega
  | succ f => simp [natToHexAux, hn]

/-- The padded hex digits of a natural below 256 are exactly two
characters, each a hex digit character. -/
theorem padStart2_natToHex (n : Nat) (hn : n < 256) :
    (padStart2 (natToHexDigits n)).length = 2 ∧
    ∀ c ∈ padStart2 (natToHexDigits n), ∃ d, d < 16 ∧ c = hexDigitChar d := by
  by_cases h16 : n < 16
  · have h1 : natToHexDigits n = [hexDigitChar n] :=
      natToHexAux_small _ _ (Nat.succ_pos n) h16
    rw [h1]
    constructor
    · simp [padStart2]
    · intro c hc
      simp [padStart2] at hc
      rcases hc with h | h
      · exact ⟨0, by omega, by rw [h]; rfl⟩
      · exact ⟨n, h16, h⟩
  · have hdiv : n / 16 < 16 := by omega
    have h0 : 0 < n := by omega
    have h2 : natToHexDigits n = [hexDigitChar (n / 16), hexDigitChar (n % 16)] := by
      unfold natToHexDigits
      have : natToHexAux (n + 1) n =
          natToHexAux n (n / 16) ++ [hexDigitChar (n % 16)] := by
        simp [natToHexAux, h16]
      rw [this, natToHexAux_small n (n / 16) h0 hdiv]
      rfl
    rw [h2]
    constructor
    · simp [padStart2]
    · intro c hc
      simp [padStart2] at hc
      rcases hc with h | h
      · exact ⟨n / 16, hdiv, h⟩
      · exact ⟨n % 16, Nat.mod_lt n (by omega), h⟩

/-- Every hex digit character is a decimal digit or a lowercase `a`-`f`. -/
theorem hexDigitChar_shape (d : Nat) (hd : d < 16) :
    (hexDigitChar d).isDigit = true ∨ (97 ≤ (hexDigitChar d).toNat ∧ (hexDigitChar d).toNat ≤ 102) := by
  interval_cases d <;> decide

/-- Scaling a 0-1 component to 0-255 and rounding stays within 0-255. -/
theorem jsRound_scale_bounds (q : ℚ) (h0 : 0 ≤ q) (h1 : q ≤ 1) :
    0 ≤ jsRound (q * 255) ∧ jsRound (q * 255) ≤ 255 := by
  unfold jsRound
  constructor
  · apply Int.le_floor.mpr
    push_cast
    nlinarith
  · have hlt : (q * 255 + 1 / 2 : ℚ) < ((256 : ℤ) : ℚ) := by
      push_cast
      nlinarith
    have h2 := Int.floor_lt.mpr hlt
    omega

/-- One colour component renders as exactly two lowercase hex characters. -/
theorem toHexComponent_shape (x : ℚ) (h0 : 0 ≤ x) (h1 : x ≤ 1) :
    (padStart2 (intToHexDigits (jsRound (x * 255)))).length = 2 ∧
    ∀ c ∈ padStart2 (intToHexDigits (jsRound (x * 255))),
      c.isDigit = true ∨ (97 ≤ c.toNat ∧ c.toNat ≤ 102) := by
  obtain ⟨hl, hu⟩ := jsRound_scale_bounds x h0 h1
  have heq : intToHexDigits (jsRound (x * 255)) = natToHexDigits (jsRound (x * 255)).toNat := by
    unfold intToHexDigits
    rw [if_neg (by omega)]
  rw [heq]
  have h256 : (jsRound (x * 255)).toNat < 256 := by omega
  obtain ⟨hlen, hchars⟩ := padStart2_natToHex _ h256
  refine ⟨hlen, fun c hc => ?_⟩
  obtain ⟨d, hd, hcd⟩ := hchars c hc
  subst hcd
  exact hexDigitChar_shape d hd

/-- C4 counterexample: on the end-to-end graph the engine produces
`#d1f0fa` (Blue) and `#def5eb` (Green), not the claimed `#d2effb` /
`#dff6eb` — `Math.round(0.82 * 255) = 209 = 0xd1`, and likewise for the
other components. -/
theorem claim4_counterexample :
    processVariablesByCollection e2eVars e2eCollections = Except.ok [("Colour", e2eActualTree)] ∧
    getPath e2eActualTree ["brand", "tint", "1", "Blue", "value"] =
      some (JTree.val (JsValue.vStr "#d1f0fa")) ∧
    getPath e2eActualTree ["brand", "tint", "1", "Green", "value"] =
      some (JTree.val (JsValue.vStr "#def5eb")) ∧
    ("#d1f0fa" : String) ≠ "#d2effb" ∧ ("#def5eb" : String) ≠ "#dff6eb" := by
  refine ⟨by with_unfolding_all rfl, rfl, rfl, by decide, by decide⟩

/-- C4 amended: the end-to-end scenario produces the token tree
`brand.tint.1.{Blue, Green}` with values `#d1f0fa` and `#def5eb` (type
`color`); and in general a COLOR value with components in 0-1 is converted
to a 7-character lowercase `#`-prefixed hex string — the three components
rounded to 0-255 and zero-padded to two lowercase hex digits each. -/
theorem claim4_amended_e2e :
    processVariablesByCollection e2eVars e2eCollections = Except.ok [("Colour", e2eActualTree)] ∧
    (∀ r g b : ℚ, 0 ≤ r → r ≤ 1 → 0 ≤ g → g ≤ 1 → 0 ≤ b → b ≤ 1 →
      (rgbToHex r g b).data.length = 7 ∧ (rgbToHex r g b).data.head? = some '#' ∧
      ∀ c ∈ (rgbToHex r g b).data.tail,
        c.isDigit = true ∨ (97 ≤ c.toNat ∧ c.toNat ≤ 102)) := by
  constructor
  · with_unfolding_all rfl
  · intro r g b hr0 hr1 hg0 hg1 hb0 hb1
    obtain ⟨hlr, hcr⟩ := toHexComponent_shape r hr0 hr1
    obtain ⟨hlg, hcg⟩ := toHexComponent_shape g hg0 hg1
    obtain ⟨hlb, hcb⟩ := toHexComponent_shape b hb0 hb1
    have hdata : (rgbToHex r g b).data =
        '#' :: (padStart2 (intToHexDigits (jsRound (r * 255))) ++
          padStart2 (intToHexDigits (jsRound (g * 255))) ++
          padStart2 (intToHexDigits (jsRound (b * 255)))) := rfl
    rw [hdata]
    refine ⟨?_, rfl, ?_⟩
    · simp [List.length_append, hlr, hlg, hlb]
    · intro c hc
      simp only [List.tail_cons, List.mem_append] at hc
      rcases hc with (h | h) | h
      · exact hcr c h
      · exact hcg c h
      · exact hcb c h

/-- C4 amended witness: the shape property applied at components 1/2. -/
theorem claim4_amended_witness :
    (rgbToHex (1/2) (1/2) (1/2)).data.length = 7 ∧
    (rgbToHex (1/2) (1/2) (1/2)).data.head? = some '#' ∧
    ∀ c ∈ (rgbToHex (1/2) (1/2) (1/2)).data.tail,
      c.isDigit = true ∨ (97 ≤ c.toNat ∧ c.toNat ≤ 102) :=
  claim4_amended_e2e.2 (1/2) (1/2) (1/2) (by norm_num) (by norm_num) (by norm_num)
    (by norm_num) (by norm_num) (by norm_num)
